import Mathlib

/-!
Verification of the mosaic layout / tile-specification construction engine and
the import state machine of `src/python/janelia_emrp/msem/msem_to_render.py`.

The Python code is shallowly embedded: pure helpers become Lean functions,
Python integers become `Int` (or `Nat` where the source guarantees
non-negativity), Python strings become `String` built explicitly from
character lists, fallible operations (list indexing, `numpy` reductions on
empty arrays) return `Option` or `Except`, and the per-slab import loop is an
explicit fold over a run state that records the calls issued to the remote
render store as a list of events.
-/

/-! ## Decimal rendering of integers (Python f-string `:0Nd` formatting) -/

/-- Big-endian decimal digit characters of `n`, using `fuel` to bound the
recursion (callers pass `fuel = n`, which always suffices).  Returns `[]` for
`n = 0`. -/
def toDecChars : Nat → Nat → List Char
  | 0, _ => []
  | fuel + 1, n => if n = 0 then [] else toDecChars fuel (n / 10) ++ [Nat.digitChar (n % 10)]

/-- Decimal character list of a natural number, `"0"` for zero. -/
def natStr (n : Nat) : List Char :=
  if n = 0 then ['0'] else toDecChars n n

/-- Left-pad a character list with `'0'` up to width `w`. -/
def zeroPad (w : Nat) (s : List Char) : List Char :=
  List.replicate (w - s.length) '0' ++ s

/-- Python `f"\x7bn:0wd\x7d"` for a natural number `n`. -/
def padNat (w : Nat) (n : Nat) : List Char :=
  zeroPad w (natStr n)

/-- Python `f"\x7bn:0wd\x7d"` for an integer `n`: sign-aware zero padding, the
sign occupying one column of the field width. -/
def padInt (w : Nat) (n : Int) : List Char :=
  if n < 0 then '-' :: padNat (w - 1) (-n).toNat else padNat w n.toNat

/-- Python `str(n)` for an integer (no padding). -/
def intChars (n : Int) : List Char :=
  padInt 0 n

/-! ## Scan Selection Engine (`import_slab_stacks_for_wafer`, lines 273-276)

`scans = sorted(((set(include_scan_list) or effective_scans) & effective_scans)
               - set(exclude_scan_list))` -/

/-- Python `a or b` on sets: the first operand if it is truthy (non-empty),
otherwise the second. -/
def pyOr (a b : Finset Int) : Finset Int :=
  if a = ∅ then b else a

/-- The scan selection computed at `msem_to_render.py:273-276`. -/
def selected_scans (include_scans exclude_scans effective_scans : Finset Int) : List Int :=
  (((pyOr include_scans effective_scans) ∩ effective_scans) \ exclude_scans).sort (· ≤ ·)

/-- The selection as worded in the specification: `((include_scans if
non-empty else effective_scans) ∩ effective_scans) − exclude_scans`, sorted
ascending. -/
def selected_scans_spec (include_scans exclude_scans effective_scans : Finset Int) : List Int :=
  (((if include_scans.Nonempty then include_scans else effective_scans) ∩ effective_scans)
    \ exclude_scans).sort (· ≤ ·)

/-! ## Spiral-order table and tile-id formatter (lines 139-174) -/

/-- The fixed SFOV spiral-to-raster table `RENDER_SFOV_ORDER`. -/
def RENDER_SFOV_ORDER : List Nat := [
  46, 47, 36, 35, 45, 56, 57, 48, 37, 27,
  26, 25, 34, 44, 55, 65, 66, 67, 58, 49,
  38, 28, 19, 18, 17, 16, 24, 33, 43, 54,
  64, 73, 74, 75, 76, 68, 59, 50, 39, 29,
  20, 12, 11, 10,  9,  8, 15, 23, 32, 42,
  53, 63, 72, 80, 81, 82, 83, 84, 77, 69,
  60, 51, 40, 30, 21, 13,  6,  5,  4,  3,
   2,  1,  7, 14, 22, 31, 41, 52, 62, 71,
  79, 86, 87, 88, 89, 90, 91, 85, 78, 70,
  61]

/-- Python list subscription `xs[i]`: negative indices count from the end,
out-of-range indices raise (modelled as `none`). -/
def pyGet (xs : List Nat) (i : Int) : Option Nat :=
  let j : Int := if i < 0 then i + xs.length else i
  if 0 ≤ j then xs.get? j.toNat else none

/-- Model of `create_tile_id` (lines 152-174): joins the six zero-padded components
with underscores; the spiral-table subscription may raise, hence `Option`. -/
def create_tile_id (wafer_id : String) (slab scan mfov sfov : Int) : Option String :=
  match pyGet RENDER_SFOV_ORDER sfov with
  | none => none
  | some rank =>
    some (String.mk (List.intercalate ['_']
      [ 'w' :: wafer_id.data
      , "magc".data ++ padInt 4 slab
      , "scan".data ++ padInt 3 scan
      , 'm' :: padInt 4 mfov
      , 'r' :: padNat 2 rank
      , 's' :: padInt 2 (sfov + 1) ]))

/-! ## Tile-spec builder (lines 34-131) -/

/-- Modelled from the spec: `N_BEAMS` is imported from
`janelia_emrp.msem.ingestion_ibeammsem.constant`, which is not part of the
sources; the specification fixes the SFOV count per MFOV at 91. -/
def N_BEAMS : Nat := 91

/-- Modelled from the spec: `WAFER_60_61_SCAN_FIT_PARAMETERS` lives in
`scan_fit_parameters.py`, which is not part of the sources.  The spec
describes it as a fixed, externally supplied per-wafer coefficient set whose
`to_transform_spec()` result is placed (unchanged) as the first entry of each
tile transform list; its contents are opaque here and no claim depends on
them. -/
def WAFER_60_61_SCAN_FIT_PARAMETERS : String × String :=
  ("scan_fit_correction", "wafer_60_61_coefficients")

/-- One tile specification dictionary as assembled by `build_tile_spec`
(lines 56-74).  `tileId` is an `Option` because the tile-id formatter can
raise on an out-of-range SFOV index. -/
structure TileSpec where
  tileId : Option String
  z : Int
  sectionId : String
  imageRow : Int
  imageCol : Int
  stageX : Int
  stageY : Int
  width : Int
  height : Int
  minIntensity : Int
  maxIntensity : Int
  imageUrl : String
  scanFitSpec : String × String
  transformClassName : String
  transformDataString : String
deriving DecidableEq, Repr

/-- Model of `build_tile_spec` (lines 34-76).  `layout` abstracts the external
`FieldOfViewLayout.row_and_col` accessor. -/
def build_tile_spec (image_path : String) (stage_x stage_y stage_z : Int)
    (tile_id : Option String) (tile_width tile_height : Int)
    (layout : Int → String → Int × Int) (mfov_id : Int) (sfov_index_name : String)
    (min_x min_y : Int) (scan_fit : String × String) (margin : Int) : TileSpec :=
  let rc := layout mfov_id sfov_index_name
  { tileId := tile_id
    z := stage_z
    sectionId := String.mk (intChars stage_z ++ ".0".data)
    imageRow := rc.1
    imageCol := rc.2
    stageX := stage_x
    stageY := stage_y
    width := tile_width
    height := tile_height
    minIntensity := 0
    maxIntensity := 255
    imageUrl := String.mk ("file:".data ++ image_path.data)
    scanFitSpec := scan_fit
    transformClassName := "mpicbg.trakem2.transform.AffineModel2D"
    transformDataString := String.mk ("1 0 0 1 ".data
      ++ intChars (stage_x - min_x + margin) ++ ' ' :: intChars (stage_y - min_y + margin)) }

/-- Model of `np.array(sfov_xy_list).min(axis=0)` (line 102): component-wise minimum
over the stage positions; raises (`none`) on an empty list. -/
def minStage : List (Int × Int) → Option (Int × Int)
  | [] => none
  | p :: ps => some (ps.foldl (fun acc q => (min acc.1 q.1, min acc.2 q.2)) p)

/-- Model of `build_tile_specs_for_slab_scan` (lines 79-131): zips
`itertools.product(mfovs, range(N_BEAMS))` with the path and stage-position
lists (truncating to the shortest, as Python `zip` does) and builds one tile
spec per triple; the margin is the hardcoded 400.  `none` models the
`ValueError` numpy raises for an empty `sfov_xy_list`. -/
def build_tile_specs_for_slab_scan (slab_scan_path : String) (scan slab : Int)
    (mfovs : List Int) (sfov_path_list : List String) (sfov_xy_list : List (Int × Int))
    (stage_z : Int) (layout : Int → String → Int × Int) (wafer_id : String)
    (tile_width tile_height : Int) : Option (List TileSpec) :=
  match minStage sfov_xy_list with
  | none => none
  | some m =>
    some ((((mfovs.product (List.range N_BEAMS)).zip sfov_path_list).zip sfov_xy_list).map
      (fun t =>
        let mfov : Int := t.1.1.1
        let sfov : Nat := t.1.1.2
        let image_path : String := t.1.2
        build_tile_spec image_path t.2.1 t.2.2 stage_z
          (create_tile_id wafer_id slab scan mfov (sfov : Int))
          tile_width tile_height layout mfov (String.mk (padNat 3 (sfov + 1)))
          m.1 m.2 WAFER_60_61_SCAN_FIT_PARAMETERS 400))

/-! ## Import state machine (lines 256-367, one slab of
`import_slab_stacks_for_wafer` together with
`ensure_stack_is_in_loading_state` and `get_stack_metadata_or_none`) -/

/-- The per-scan data the importer reads from the acquisition log: the
concatenated SFOV path and stage-position lists (lines 283-298) and whether
the first source image exists on disk (line 305). -/
structure ScanData where
  paths : List String
  xys : List (Int × Int)
  firstExists : Bool

/-- The per-slab environment of the import loop: slab identity, MFOV list,
tile dimensions, the layout built once for the stack, whether the remote
stack metadata is retrievable (deciding create vs. force-loading), and the
per-scan acquisition data. -/
structure SlabEnv where
  wafer_id : String
  slab : Int
  mfovs : List Int
  tile_width : Int
  tile_height : Int
  layout : Int → String → Int × Int
  stackExists : Bool
  scanData : Int → ScanData
  slabScanPath : Int → String

/-- Calls issued to the remote render store, plus the two log-only skip
notes, in program order. -/
inductive Event where
  | createStack
  | setLoading
  | saveTiles (z scan : Int) (count : Nat)
  | setComplete
  | warnMissing (scan : Int)
  | debugEmpty (scan : Int)
deriving DecidableEq, Repr

/-- Model of `ensure_stack_is_in_loading_state` (lines 348-367): create the stack when
its metadata cannot be retrieved, otherwise force it to LOADING. -/
def enterLoadingEvent (stackExists : Bool) : Event :=
  if stackExists then Event.setLoading else Event.createStack

/-- Mutable state of the per-slab loop: the layer index `z`, the
`stack_is_in_loading_state` flag, and the events issued so far. -/
structure RunState where
  z : Int
  loading : Bool
  events : List Event
deriving DecidableEq, Repr

/-- Lines 257-259: `z = 1`, `stack_is_in_loading_state = False`. -/
def initRunState : RunState :=
  { z := 1, loading := false, events := [] }

/-- The body of `for scan in scans:` (lines 282-342).  The info-log at lines
300-302 subscripts `slab_scan_sfov_path_list[0]` and
`slab_scan_sfov_xy_list[0]`, so an empty path or stage-position list raises
an `IndexError` there; a missing first image skips the scan with a warning;
an empty tile-spec batch is noted at debug level without advancing `z`; a
non-empty batch first puts the stack into loading (once per run), then saves
the batch at the current `z` and increments `z`. -/
def processScan (env : SlabEnv) (st : RunState) (scan : Int) : Except String RunState :=
  let d := env.scanData scan
  if d.paths.isEmpty || d.xys.isEmpty then
    Except.error "IndexError: list index out of range"
  else if !d.firstExists then
    Except.ok { st with events := st.events ++ [Event.warnMissing scan] }
  else
    match build_tile_specs_for_slab_scan (env.slabScanPath scan) scan env.slab env.mfovs
        d.paths d.xys st.z env.layout env.wafer_id env.tile_width env.tile_height with
    | none => Except.error "ValueError: zero-size array to reduction operation"
    | some tile_specs =>
      if 0 < tile_specs.length then
        Except.ok { z := st.z + 1, loading := true,
                    events := st.events
                      ++ (if st.loading then [] else [enterLoadingEvent env.stackExists])
                      ++ [Event.saveTiles st.z scan tile_specs.length] }
      else
        Except.ok { st with events := st.events ++ [Event.debugEmpty scan] }

/-- Folds `processScan` over the selected scans; an exception aborts the
slab. -/
def runScans (env : SlabEnv) : List Int → RunState → Except String RunState
  | [], st => Except.ok st
  | s :: ss, st =>
    match processScan env st s with
    | Except.error e => Except.error e
    | Except.ok st' => runScans env ss st'

/-- One slab of the import run (lines 256-345): process every selected scan
and, if the stack was ever put into loading, close it with COMPLETE. -/
def runSlab (env : SlabEnv) (scans : List Int) : Except String (List Event) :=
  match runScans env scans initRunState with
  | Except.error e => Except.error e
  | Except.ok st => Except.ok (st.events ++ if st.loading then [Event.setComplete] else [])

/-! ### Derived views of a run used by the theorems -/

/-- Length of the zip at lines 115-127, i.e. the number of tile specs a scan
would produce. -/
def tileCount (env : SlabEnv) (scan : Int) : Nat :=
  min (min (env.mfovs.length * N_BEAMS) (env.scanData scan).paths.length)
    (env.scanData scan).xys.length

/-- Whether a scan produces a non-empty tile batch (its first image exists
and the zip of lines 115-127 is non-empty). -/
def produces (env : SlabEnv) (scan : Int) : Bool :=
  (env.scanData scan).firstExists && (tileCount env scan != 0)

/-- The `(z, scan)` pairs of the save events of a run, in order. -/
def savesOf (evs : List Event) : List (Int × Int) :=
  evs.filterMap fun e =>
    match e with
    | Event.saveTiles z s _ => some (z, s)
    | _ => none

/-- Remote-store calls (excludes the two log-only notes). -/
def isStoreOp : Event → Bool
  | Event.createStack => true
  | Event.setLoading => true
  | Event.saveTiles _ _ _ => true
  | Event.setComplete => true
  | _ => false

/-- The remote-store calls of a run, in order. -/
def storeOps (evs : List Event) : List Event :=
  evs.filter isStoreOp

/-- The expected `(z, scan)` save pairs: consecutive layer indices starting
at `z` assigned to the given scans in order. -/
def expectedSaves (z : Int) : List Int → List (Int × Int)
  | [] => []
  | s :: ss => (z, s) :: expectedSaves (z + 1) ss

/-- The expected save events for the given producing scans, starting at
layer `z`. -/
def expectedSaveEvents (env : SlabEnv) (z : Int) : List Int → List Event
  | [] => []
  | s :: ss => Event.saveTiles z s (tileCount env s) :: expectedSaveEvents env (z + 1) ss

/-- The full expected event trace of a non-aborting run over the given
scans, starting at layer `z` with loading flag `loading`. -/
def expectedEvents (env : SlabEnv) (z : Int) (loading : Bool) : List Int → List Event
  | [] => []
  | s :: ss =>
    if !(env.scanData s).firstExists then
      Event.warnMissing s :: expectedEvents env z loading ss
    else if tileCount env s = 0 then
      Event.debugEmpty s :: expectedEvents env z loading ss
    else
      (if loading then [] else [enterLoadingEvent env.stackExists])
        ++ Event.saveTiles z s (tileCount env s) :: expectedEvents env (z + 1) true ss

/-- Parse a big-endian decimal character list (proof-side inverse of
`padNat`). -/
def parseNat (l : List Char) : Nat :=
  l.foldl (fun a c => 10 * a + (c.toNat - 48)) 0

/-- A slab environment in which every scan has one SFOV with an existing
first image; scan 3 alone is missing its first source image. -/
def env0 : SlabEnv :=
  { wafer_id := "60", slab := 2, mfovs := [1], tile_width := 10, tile_height := 10,
    layout := fun _ _ => (0, 0), stackExists := false,
    scanData := fun s =>
      if s = 3 then { paths := ["p3"], xys := [(0, 0)], firstExists := false }
      else { paths := ["p"], xys := [(0, 0)], firstExists := true },
    slabScanPath := fun _ => "sp" }

/-- A slab environment whose scans have an empty collected SFOV path list. -/
def env8 : SlabEnv :=
  { wafer_id := "60", slab := 2, mfovs := [1], tile_width := 10, tile_height := 10,
    layout := fun _ _ => (0, 0), stackExists := false,
    scanData := fun _ => { paths := [], xys := [], firstExists := true },
    slabScanPath := fun _ => "sp" }

/-- A slab environment with non-empty path and stage-position lists but an
empty MFOV list, so the zip of the builder is empty and the tile batch has
zero specs. -/
def env9 : SlabEnv :=
  { wafer_id := "60", slab := 2, mfovs := [], tile_width := 10, tile_height := 10,
    layout := fun _ _ => (0, 0), stackExists := false,
    scanData := fun _ => { paths := ["p"], xys := [(0, 0)], firstExists := true },
    slabScanPath := fun _ => "sp" }

/-- A sorted duplicate-free list with the right elements is the `Finset.sort`
of the corresponding finset. -/
lemma finset_sort_eq (s : Finset Int) (L : List Int)
    (h1 : L.Sorted (· ≤ ·)) (h2 : L.Nodup) (h3 : L.toFinset = s) :
    s.sort (· ≤ ·) = L := by
  apply List.eq_of_perm_of_sorted ?_ (Finset.sort_sorted _ _) h1
  apply List.perm_of_nodup_nodup_toFinset_eq (Finset.sort_nodup _ _) h2
  rw [Finset.sort_toFinset, h3]

/-! ## Scan-selection theorems (C1, C2) -/

/-- Claim C1 (settled against the code, which contradicts the help text of
`--include_scan`): even when `include_scans` is non-empty, `exclude_scans` is
still subtracted, so a scan listed in both `include_scans` and
`exclude_scans` and present in `effective_scans` is NOT selected.  At
`include = exclude = effective = \x7b5\x7d` the code selects nothing, while the
claimed include-overrides-exclude policy would select scan 5. -/
theorem selected_scans_exclude_applied_despite_include :
    selected_scans {5} {5} {5} = [] ∧
    selected_scans {5} {5} {5} ≠ (({5} : Finset Int) ∩ {5}).sort (· ≤ ·) := by
  have h1 : selected_scans {5} {5} {5} = [] :=
    finset_sort_eq _ _ (by decide) (by decide) (by decide)
  have h2 : (({5} : Finset Int) ∩ {5}).sort (· ≤ ·) = [5] :=
    finset_sort_eq _ _ (by decide) (by decide) (by decide)
  refine ⟨h1, ?_⟩
  rw [h1, h2]
  decide

/-- Claim C2: the computed scan selection equals
`((include_scans if non-empty else effective_scans) ∩ effective_scans) −
exclude_scans`, returned as an ascending sorted list; in particular
`include = \x7b5,6\x7d, exclude = \x7b0,1,2,3,7,18\x7d, effective = \x7b1..20\x7d` selects
`[5, 6]` and `include = ∅, exclude = \x7b0,1\x7d, effective = \x7b0,1,2\x7d` selects
`[2]`. -/
theorem selected_scans_formula :
    (∀ include_scans exclude_scans effective_scans : Finset Int,
      selected_scans include_scans exclude_scans effective_scans =
        selected_scans_spec include_scans exclude_scans effective_scans ∧
      (selected_scans include_scans exclude_scans effective_scans).Sorted (· ≤ ·)) ∧
    selected_scans {5, 6} {0, 1, 2, 3, 7, 18} (Finset.Icc 1 20) = [5, 6] ∧
    selected_scans ∅ {0, 1} {0, 1, 2} = [2] := by
  refine ⟨fun incl excl eff => ⟨?_, Finset.sort_sorted _ _⟩, ?_, ?_⟩
  · by_cases h : incl = ∅ <;>
      simp [selected_scans, selected_scans_spec, pyOr, h, Finset.nonempty_iff_ne_empty]
  · exact finset_sort_eq _ _ (by decide) (by decide) (by decide)
  · exact finset_sort_eq _ _ (by decide) (by decide) (by decide)

/-! ## Spiral-table and tile-id theorems (C3, C4, C10) -/

/-- Claim C3: `RENDER_SFOV_ORDER` has length 91, no duplicate entries, and
its entries are exactly the integers 1..91, i.e. as a function of the
0-based SFOV index it is a bijection onto 1..91. -/
theorem render_sfov_order_bijection :
    RENDER_SFOV_ORDER.length = 91 ∧ RENDER_SFOV_ORDER.Nodup ∧
      RENDER_SFOV_ORDER.toFinset = Finset.Icc 1 91 := by
  refine ⟨rfl, by decide, by decide⟩

/-- For an in-range SFOV index, `create_tile_id` succeeds and produces the
six underscore-joined components. -/
lemma create_tile_id_in_range (w : String) (slab scan mfov sfov : Int)
    (h0 : 0 ≤ sfov) (h1 : sfov ≤ 90) :
    create_tile_id w slab scan mfov sfov =
      some (String.mk (List.intercalate ['_']
        [ 'w' :: w.data
        , "magc".data ++ padInt 4 slab
        , "scan".data ++ padInt 3 scan
        , 'm' :: padInt 4 mfov
        , 'r' :: padNat 2 ((RENDER_SFOV_ORDER.get? sfov.toNat).getD 0)
        , 's' :: padInt 2 (sfov + 1) ])) := by
  have hlen : RENDER_SFOV_ORDER.length = 91 := rfl
  have hlt : sfov.toNat < RENDER_SFOV_ORDER.length := by omega
  have hget : pyGet RENDER_SFOV_ORDER sfov = some (RENDER_SFOV_ORDER.get ⟨sfov.toNat, hlt⟩) := by
    simp only [pyGet]
    rw [if_neg (show ¬ sfov < 0 by omega), if_pos h0]
    exact List.get?_eq_get hlt
  unfold create_tile_id
  rw [hget, List.get?_eq_get hlt]
  rfl

/-- Claim C4: for wafer "60", slab 2, scan 1, mfov 3, sfov 3 the tile id is
exactly `w60_magc0002_scan001_m0003_r35_s04` (35 being the spiral-table entry
at index 3, width-2 formatted), and in general, for `0 ≤ sfov ≤ 90`, the id
is the six zero-padded components joined by underscores. -/
theorem create_tile_id_format :
    create_tile_id "60" 2 1 3 3 = some "w60_magc0002_scan001_m0003_r35_s04" ∧
    ∀ (w : String) (slab scan mfov sfov : Int), 0 ≤ sfov → sfov ≤ 90 →
      create_tile_id w slab scan mfov sfov =
        some (String.mk (List.intercalate ['_']
          [ 'w' :: w.data
          , "magc".data ++ padInt 4 slab
          , "scan".data ++ padInt 3 scan
          , 'm' :: padInt 4 mfov
          , 'r' :: padNat 2 ((RENDER_SFOV_ORDER.get? sfov.toNat).getD 0)
          , 's' :: padInt 2 (sfov + 1) ])) :=
  ⟨by decide, create_tile_id_in_range⟩

/-- Claim C10: the spiral-table subscription succeeds exactly for
`-91 ≤ sfov ≤ 90`.  For `sfov ≥ 91` the formatter raises an index error; for
`-91 ≤ sfov ≤ -1` it silently returns a well-formed id whose render rank is
read from the end of the table (Python negative indexing) and whose
s-component is `sfov + 1`; in particular `sfov = -1` yields rank 61 and
component `s00`. -/
theorem create_tile_id_bounds :
    (∀ (w : String) (slab scan mfov sfov : Int), 91 ≤ sfov →
      create_tile_id w slab scan mfov sfov = none) ∧
    (∀ (w : String) (slab scan mfov sfov : Int), -91 ≤ sfov → sfov ≤ -1 →
      create_tile_id w slab scan mfov sfov =
        some (String.mk (List.intercalate ['_']
          [ 'w' :: w.data
          , "magc".data ++ padInt 4 slab
          , "scan".data ++ padInt 3 scan
          , 'm' :: padInt 4 mfov
          , 'r' :: padNat 2 ((RENDER_SFOV_ORDER.get? (sfov + 91).toNat).getD 0)
          , 's' :: padInt 2 (sfov + 1) ]))) ∧
    create_tile_id "60" 2 1 3 (-1) = some "w60_magc0002_scan001_m0003_r61_s00" := by
  have hlen : RENDER_SFOV_ORDER.length = 91 := rfl
  refine ⟨?_, ?_, by decide⟩
  · intro w slab scan mfov sfov h
    have hnone : pyGet RENDER_SFOV_ORDER sfov = none := by
      simp only [pyGet]
      rw [if_neg (show ¬ sfov < 0 by omega), if_pos (show (0 : Int) ≤ sfov by omega)]
      exact List.get?_eq_none.mpr (by omega)
    unfold create_tile_id
    rw [hnone]
  · intro w slab scan mfov sfov h0 h1
    have hlt : (sfov + 91).toNat < RENDER_SFOV_ORDER.length := by omega
    have hget : pyGet RENDER_SFOV_ORDER sfov =
        some (RENDER_SFOV_ORDER.get ⟨(sfov + 91).toNat, hlt⟩) := by
      simp only [pyGet, hlen, Nat.cast_ofNat]
      rw [if_pos (show sfov < 0 by omega),
        if_pos (show (0 : Int) ≤ sfov + 91 by omega)]
      exact List.get?_eq_get hlt
    unfold create_tile_id
    rw [hget, List.get?_eq_get hlt]
    rfl

/-- Witness for the general part of `create_tile_id_format` at the concrete
input of the claim. -/
theorem create_tile_id_format_witness :
    create_tile_id "60" 2 1 3 3 = some "w60_magc0002_scan001_m0003_r35_s04" := by
  rw [create_tile_id_format.2 "60" 2 1 3 3 (by decide) (by decide)]
  decide

/-- Witness for `create_tile_id_bounds` at `sfov = 91` (out of range above)
and `sfov = -1` (negative indexing). -/
theorem create_tile_id_bounds_witness :
    create_tile_id "60" 2 1 3 91 = none ∧
    create_tile_id "60" 2 1 3 (-1) = some "w60_magc0002_scan001_m0003_r61_s00" := by
  refine ⟨create_tile_id_bounds.1 "60" 2 1 3 91 (by decide), ?_⟩
  rw [create_tile_id_bounds.2.1 "60" 2 1 3 (-1) (by decide) (by decide)]
  decide

/-! ## Injectivity of the tile-id formatter (C9) -/

lemma digitChar_toNat_sub : ∀ d : Nat, d < 10 → (Nat.digitChar d).toNat - 48 = d := by decide

lemma foldl_toDecChars (fuel : Nat) : ∀ n acc, n ≤ fuel →
    (toDecChars fuel n).foldl (fun a c => 10 * a + (c.toNat - 48)) acc =
      acc * 10 ^ (toDecChars fuel n).length + n := by
  induction fuel with
  | zero =>
    intro n acc h
    have : n = 0 := by omega
    subst this
    simp [toDecChars]
  | succ f ih =>
    intro n acc h
    by_cases hn : n = 0
    · subst hn
      simp [toDecChars]
    · have hdiv : n / 10 ≤ f := by
        have hlt : n / 10 < n := Nat.div_lt_self (Nat.pos_of_ne_zero hn) (by norm_num)
        omega
      simp only [toDecChars, if_neg hn, List.foldl_append, List.length_append,
        List.foldl_cons, List.foldl_nil, List.length_cons, List.length_nil]
      rw [ih (n / 10) acc hdiv,
        digitChar_toNat_sub (n % 10) (Nat.mod_lt n (by norm_num))]
      have key : (n / 10) * 10 + n % 10 = n := by omega
      calc 10 * (acc * 10 ^ (toDecChars f (n / 10)).length + n / 10) + n % 10
          = acc * 10 ^ ((toDecChars f (n / 10)).length + (0 + 1)) + ((n / 10) * 10 + n % 10) := by
            ring
        _ = acc * 10 ^ ((toDecChars f (n / 10)).length + (0 + 1)) + n := by rw [key]

lemma parseNat_natStr (n : Nat) : parseNat (natStr n) = n := by
  by_cases hn : n = 0
  · subst hn
    decide
  · unfold natStr parseNat
    rw [if_neg hn, foldl_toDecChars n n 0 le_rfl]
    simp

lemma parseNat_padNat (w n : Nat) : parseNat (padNat w n) = n := by
  have hz : ∀ k, List.foldl (fun a c => 10 * a + (c.toNat - 48)) 0 (List.replicate k '0') = 0 := by
    intro k
    induction k with
    | zero => rfl
    | succ k ihk => simpa [List.replicate_succ] using ihk
  calc parseNat (padNat w n)
      = (natStr n).foldl (fun a c => 10 * a + (c.toNat - 48))
          ((List.replicate (w - (natStr n).length) '0').foldl
            (fun a c => 10 * a + (c.toNat - 48)) 0) := by
        simp [parseNat, padNat, zeroPad, List.foldl_append]
    _ = parseNat (natStr n) := by rw [hz]; rfl
    _ = n := parseNat_natStr n

lemma padNat_inj {w w' a b : Nat} (h : padNat w a = padNat w' b) : a = b := by
  have ha := parseNat_padNat w a
  rw [h, parseNat_padNat] at ha
  exact ha.symm

lemma padInt_nonneg (w : Nat) (n : Int) (h : 0 ≤ n) : padInt w n = padNat w n.toNat := by
  unfold padInt
  rw [if_neg (by omega)]

lemma padInt_inj {w w' : Nat} {a b : Int} (ha : 0 ≤ a) (hb : 0 ≤ b)
    (h : padInt w a = padInt w' b) : a = b := by
  rw [padInt_nonneg w a ha, padInt_nonneg w' b hb] at h
  have := padNat_inj h
  omega

lemma digitChar_mem : ∀ d : Nat, d < 10 →
    Nat.digitChar d ∈ ['0', '1', '2', '3', '4', '5', '6', '7', '8', '9'] := by decide

lemma mem_toDecChars (fuel : Nat) : ∀ n c, c ∈ toDecChars fuel n →
    c ∈ ['0', '1', '2', '3', '4', '5', '6', '7', '8', '9'] := by
  induction fuel with
  | zero => intro n c h; simp [toDecChars] at h
  | succ f ih =>
    intro n c h
    by_cases hn : n = 0
    · subst hn; simp [toDecChars] at h
    · simp only [toDecChars, if_neg hn, List.mem_append, List.mem_singleton] at h
      rcases h with h | h
      · exact ih (n / 10) c h
      · subst h
        exact digitChar_mem (n % 10) (Nat.mod_lt n (by norm_num))

lemma underscore_notMem_padNat (w n : Nat) : '_' ∉ padNat w n := by
  intro h
  simp only [padNat, zeroPad, List.mem_append, List.mem_replicate] at h
  rcases h with h | h
  · exact absurd h.2 (by decide)
  · unfold natStr at h
    by_cases hn : n = 0
    · rw [if_pos hn] at h
      exact absurd h (by decide)
    · rw [if_neg hn] at h
      exact absurd (mem_toDecChars n n '_' h) (by decide)

lemma underscore_notMem_padInt (w : Nat) (n : Int) (h : 0 ≤ n) : '_' ∉ padInt w n := by
  rw [padInt_nonneg w n h]
  exact underscore_notMem_padNat w n.toNat

/-- Splitting at the first separator is unambiguous when neither left part
contains the separator. -/
lemma append_sep_inj : ∀ (a₁ a₂ r₁ r₂ : List Char), '_' ∉ a₁ → '_' ∉ a₂ →
    a₁ ++ '_' :: r₁ = a₂ ++ '_' :: r₂ → a₁ = a₂ ∧ r₁ = r₂ := by
  intro a₁
  induction a₁ with
  | nil =>
    intro a₂ r₁ r₂ _ h₂ h
    cases a₂ with
    | nil => simpa using h
    | cons b bs =>
      simp only [List.nil_append, List.cons_append, List.cons.injEq] at h
      exact absurd (by simp [← h.1]) h₂
  | cons x xs ih =>
    intro a₂ r₁ r₂ h₁ h₂ h
    cases a₂ with
    | nil =>
      simp only [List.cons_append, List.nil_append, List.cons.injEq] at h
      exact absurd (by simp [h.1]) h₁
    | cons b bs =>
      simp only [List.cons_append, List.cons.injEq] at h
      obtain ⟨hx, hrest⟩ := h
      have h₁' : '_' ∉ xs := fun hm => h₁ (List.mem_cons_of_mem _ hm)
      have h₂' : '_' ∉ bs := fun hm => h₂ (List.mem_cons_of_mem _ hm)
      obtain ⟨he, hr⟩ := ih bs r₁ r₂ h₁' h₂' hrest
      exact ⟨by rw [hx, he], hr⟩

lemma intercalate_six (a b c d e f : List Char) :
    List.intercalate ['_'] [a, b, c, d, e, f] =
      a ++ '_' :: (b ++ '_' :: (c ++ '_' :: (d ++ '_' :: (e ++ '_' :: f)))) := by
  simp [List.intercalate, List.intersperse]

lemma underscore_notMem_prefixedInt (p : List Char) (hp : '_' ∉ p) (w : Nat) (n : Int)
    (hn : 0 ≤ n) : '_' ∉ p ++ padInt w n := by
  intro hmem
  rcases List.mem_append.mp hmem with h | h
  · exact hp h
  · exact underscore_notMem_padInt w n hn h

lemma underscore_notMem_prefixedNat (p : List Char) (hp : '_' ∉ p) (w n : Nat) :
    '_' ∉ p ++ padNat w n := by
  intro hmem
  rcases List.mem_append.mp hmem with h | h
  · exact hp h
  · exact underscore_notMem_padNat w n h

/-- Claim C9: the tile-id formatter is injective on identity tuples — for a
fixed wafer id and non-negative slab, scan, mfov with `0 ≤ sfov ≤ 90`, equal
tile-id strings force equal `(slab, scan, mfov, sfov)` tuples. -/
theorem create_tile_id_injective :
    ∀ (w : String) (slab₁ scan₁ mfov₁ sfov₁ slab₂ scan₂ mfov₂ sfov₂ : Int),
      0 ≤ slab₁ → 0 ≤ scan₁ → 0 ≤ mfov₁ → 0 ≤ sfov₁ → sfov₁ ≤ 90 →
      0 ≤ slab₂ → 0 ≤ scan₂ → 0 ≤ mfov₂ → 0 ≤ sfov₂ → sfov₂ ≤ 90 →
      create_tile_id w slab₁ scan₁ mfov₁ sfov₁ = create_tile_id w slab₂ scan₂ mfov₂ sfov₂ →
      slab₁ = slab₂ ∧ scan₁ = scan₂ ∧ mfov₁ = mfov₂ ∧ sfov₁ = sfov₂ := by
  intro w s₁ c₁ m₁ f₁ s₂ c₂ m₂ f₂ hs₁ hc₁ hm₁ hf₁ hf₁' hs₂ hc₂ hm₂ hf₂ hf₂' h
  rw [create_tile_id_in_range w s₁ c₁ m₁ f₁ hf₁ hf₁',
    create_tile_id_in_range w s₂ c₂ m₂ f₂ hf₂ hf₂'] at h
  rw [intercalate_six, intercalate_six] at h
  simp only [Option.some.injEq, String.ext_iff] at h
  have h1 : '_' :: _ = '_' :: _ := List.append_cancel_left h
  simp only [List.cons.injEq, true_and] at h1
  obtain ⟨hmagc, h2⟩ := append_sep_inj _ _ _ _
    (underscore_notMem_prefixedInt "magc".data (by decide) 4 s₁ hs₁)
    (underscore_notMem_prefixedInt "magc".data (by decide) 4 s₂ hs₂) h1
  have hslab : s₁ = s₂ := padInt_inj hs₁ hs₂ (List.append_cancel_left hmagc)
  obtain ⟨hscan, h3⟩ := append_sep_inj _ _ _ _
    (underscore_notMem_prefixedInt "scan".data (by decide) 3 c₁ hc₁)
    (underscore_notMem_prefixedInt "scan".data (by decide) 3 c₂ hc₂) h2
  have hscan' : c₁ = c₂ := padInt_inj hc₁ hc₂ (List.append_cancel_left hscan)
  obtain ⟨hmpart, h4⟩ := append_sep_inj ('m' :: padInt 4 m₁) ('m' :: padInt 4 m₂) _ _
    (underscore_notMem_prefixedInt ['m'] (by decide) 4 m₁ hm₁)
    (underscore_notMem_prefixedInt ['m'] (by decide) 4 m₂ hm₂) h3
  have hmfov : m₁ = m₂ := by
    simp only [List.cons.injEq, true_and] at hmpart
    exact padInt_inj hm₁ hm₂ hmpart
  obtain ⟨-, h5⟩ := append_sep_inj
    ('r' :: padNat 2 ((RENDER_SFOV_ORDER.get? f₁.toNat).getD 0))
    ('r' :: padNat 2 ((RENDER_SFOV_ORDER.get? f₂.toNat).getD 0)) _ _
    (underscore_notMem_prefixedNat ['r'] (by decide) 2 _)
    (underscore_notMem_prefixedNat ['r'] (by decide) 2 _) h4
  have hsfov : f₁ = f₂ := by
    simp only [List.cons.injEq, true_and] at h5
    have := padInt_inj (by omega : (0:Int) ≤ f₁ + 1) (by omega : (0:Int) ≤ f₂ + 1) h5
    omega
  exact ⟨hslab, hscan', hmfov, hsfov⟩

/-- Witness for `create_tile_id_injective` at a concrete tuple. -/
theorem create_tile_id_injective_witness :
    ((2 : Int), (1 : Int), (3 : Int), (4 : Int)) = ((2 : Int), (1 : Int), (3 : Int), (4 : Int)) := by
  have h := create_tile_id_injective "60" 2 1 3 4 2 1 3 4
    (by decide) (by decide) (by decide) (by decide) (by decide)
    (by decide) (by decide) (by decide) (by decide) (by decide) rfl
  obtain ⟨h1, h2, h3, h4⟩ := h
  rw [h1, h2, h3, h4]

/-! ## Tile-spec translation anchoring (C5) -/

lemma foldl_minPair_le (ps : List (Int × Int)) : ∀ p : Int × Int,
    (ps.foldl (fun acc q => (min acc.1 q.1, min acc.2 q.2)) p).1 ≤ p.1 ∧
    (ps.foldl (fun acc q => (min acc.1 q.1, min acc.2 q.2)) p).2 ≤ p.2 ∧
    ∀ q ∈ ps, (ps.foldl (fun acc q => (min acc.1 q.1, min acc.2 q.2)) p).1 ≤ q.1 ∧
      (ps.foldl (fun acc q => (min acc.1 q.1, min acc.2 q.2)) p).2 ≤ q.2 := by
  induction ps with
  | nil => simp
  | cons r rs ih =>
    intro p
    simp only [List.foldl_cons]
    obtain ⟨h1, h2, h3⟩ := ih (min p.1 r.1, min p.2 r.2)
    refine ⟨le_trans h1 (min_le_left _ _), le_trans h2 (min_le_left _ _), ?_⟩
    intro q hq
    rcases List.mem_cons.mp hq with hq | hq
    · subst hq
      exact ⟨le_trans h1 (min_le_right _ _), le_trans h2 (min_le_right _ _)⟩
    · exact h3 q hq

/-- The computed minimum bounds every stage position of the scan. -/
lemma minStage_le (xys : List (Int × Int)) (mx my : Int)
    (h : minStage xys = some (mx, my)) : ∀ q ∈ xys, mx ≤ q.1 ∧ my ≤ q.2 := by
  cases xys with
  | nil => simp [minStage] at h
  | cons p ps =>
    simp only [minStage, Option.some.injEq] at h
    intro q hq
    obtain ⟨h1, h2, h3⟩ := foldl_minPair_le ps p
    have hfst : (ps.foldl (fun acc r => (min acc.1 r.1, min acc.2 r.2)) p).1 = mx := by
      rw [h]
    have hsnd : (ps.foldl (fun acc r => (min acc.1 r.1, min acc.2 r.2)) p).2 = my := by
      rw [h]
    rcases List.mem_cons.mp hq with hq | hq
    · subst hq
      exact ⟨hfst ▸ h1, hsnd ▸ h2⟩
    · obtain ⟨hq1, hq2⟩ := h3 q hq
      exact ⟨hfst ▸ hq1, hsnd ▸ hq2⟩

/-- Claim C5: for a scan with a non-empty stage-position list, `min_x` and
`min_y` are the component-wise minima over all collected SFOV positions, and
every produced tile carries the affine translation
`(stage_x - min_x + 400, stage_y - min_y + 400)`, both components being at
least 400 (so no negative pixel coordinates); the positions
`(100,200), (150,220), (90,260)` give the min bound `(90, 200)`. -/
theorem tile_translation_anchored :
    minStage [(100, 200), (150, 220), (90, 260)] = some (90, 200) ∧
    ∀ (slab_scan_path : String) (scan slab : Int) (mfovs : List Int)
      (sfov_path_list : List String) (sfov_xy_list : List (Int × Int))
      (stage_z : Int) (layout : Int → String → Int × Int) (wafer_id : String)
      (tile_width tile_height mx my : Int) (specs : List TileSpec),
      minStage sfov_xy_list = some (mx, my) →
      build_tile_specs_for_slab_scan slab_scan_path scan slab mfovs sfov_path_list
        sfov_xy_list stage_z layout wafer_id tile_width tile_height = some specs →
      ∀ ts ∈ specs, ∃ x y, (x, y) ∈ sfov_xy_list ∧
        ts.stageX = x ∧ ts.stageY = y ∧
        ts.transformDataString = String.mk ("1 0 0 1 ".data
          ++ intChars (x - mx + 400) ++ ' ' :: intChars (y - my + 400)) ∧
        400 ≤ x - mx + 400 ∧ 400 ≤ y - my + 400 := by
  refine ⟨by decide, ?_⟩
  intro slab_scan_path scan slab mfovs sfov_path_list sfov_xy_list stage_z layout
    wafer_id tile_width tile_height mx my specs hmin hbuild ts hts
  unfold build_tile_specs_for_slab_scan at hbuild
  rw [hmin] at hbuild
  simp only [Option.some.injEq] at hbuild
  subst hbuild
  obtain ⟨t, hmem, hfn⟩ := List.mem_map.mp hts
  have hxy : t.2 ∈ sfov_xy_list := by
    have hpair : (t.1, t.2) ∈
        ((mfovs.product (List.range N_BEAMS)).zip sfov_path_list).zip sfov_xy_list := by
      simpa using hmem
    exact (List.of_mem_zip hpair).2
  obtain ⟨hx, hy⟩ := minStage_le sfov_xy_list mx my hmin t.2 hxy
  refine ⟨t.2.1, t.2.2, by simpa using hxy, ?_, ?_, ?_, by omega, by omega⟩
  · rw [← hfn]; rfl
  · rw [← hfn]; rfl
  · rw [← hfn]; rfl

/-- Witness for `tile_translation_anchored` at the concrete scan of the
claim (three SFOVs at `(100,200)`, `(150,220)`, `(90,260)`). -/
theorem tile_translation_anchored_witness :
    minStage [(100, 200), (150, 220), (90, 260)] = some (90, 200) ∧
    ∃ x y, (x, y) ∈ [((100 : Int), (200 : Int)), (150, 220), (90, 260)] ∧
      (build_tile_spec "a" 100 200 1 (create_tile_id "60" 2 1 7 0) 10 10
        (fun _ _ => (0, 0)) 7 (String.mk (padNat 3 1)) 90 200
        WAFER_60_61_SCAN_FIT_PARAMETERS 400).stageX = x ∧
      (build_tile_spec "a" 100 200 1 (create_tile_id "60" 2 1 7 0) 10 10
        (fun _ _ => (0, 0)) 7 (String.mk (padNat 3 1)) 90 200
        WAFER_60_61_SCAN_FIT_PARAMETERS 400).stageY = y ∧
      (build_tile_spec "a" 100 200 1 (create_tile_id "60" 2 1 7 0) 10 10
        (fun _ _ => (0, 0)) 7 (String.mk (padNat 3 1)) 90 200
        WAFER_60_61_SCAN_FIT_PARAMETERS 400).transformDataString =
        String.mk ("1 0 0 1 ".data ++ intChars (x - 90 + 400) ++ ' ' :: intChars (y - 200 + 400)) ∧
      400 ≤ x - 90 + 400 ∧ 400 ≤ y - 200 + 400 := by
  refine ⟨by decide, ?_⟩
  exact tile_translation_anchored.2 "sp" 1 2 [7] ["a", "b", "c"]
    [(100, 200), (150, 220), (90, 260)] 1 (fun _ _ => (0, 0)) "60" 10 10 90 200
    ((build_tile_specs_for_slab_scan "sp" 1 2 [7] ["a", "b", "c"]
      [(100, 200), (150, 220), (90, 260)] 1 (fun _ _ => (0, 0)) "60" 10 10).getD [])
    (by decide) rfl
    (build_tile_spec "a" 100 200 1 (create_tile_id "60" 2 1 7 0) 10 10
      (fun _ _ => (0, 0)) 7 (String.mk (padNat 3 1)) 90 200
      WAFER_60_61_SCAN_FIT_PARAMETERS 400)
    (by decide)

/-! ## Import-state-machine lemmas (C6, C7, C8) -/

/-- For a non-empty stage-position list, the builder succeeds and produces
exactly `min (min (original product length) (path count)) (position count)`
tile specs (the zip truncates to the shortest input). -/
lemma build_tile_specs_length (slab_scan_path : String) (scan slab : Int)
    (mfovs : List Int) (paths : List String) (xys : List (Int × Int)) (stage_z : Int)
    (layout : Int → String → Int × Int) (wafer_id : String) (tw th : Int)
    (hne : xys ≠ []) :
    ∃ l, build_tile_specs_for_slab_scan slab_scan_path scan slab mfovs paths xys
        stage_z layout wafer_id tw th = some l ∧
      l.length = min (min (mfovs.length * N_BEAMS) paths.length) xys.length := by
  cases xys with
  | nil => exact absurd rfl hne
  | cons p ps =>
    refine ⟨_, rfl, ?_⟩
    have hp : (mfovs.product (List.range N_BEAMS)).length = mfovs.length * N_BEAMS := by
      have h := List.length_product mfovs (List.range N_BEAMS)
      simpa using h
    simp [List.length_zip, hp]


lemma runScans_ok (env : SlabEnv) : ∀ (ss : List Int) (st st' : RunState),
    runScans env ss st = Except.ok st' →
    st'.events = st.events ++ expectedEvents env st.z st.loading ss ∧
    st'.z = st.z + ((ss.filter (produces env)).length : Int) ∧
    st'.loading = (st.loading || !(ss.filter (produces env)).isEmpty) := by
  intro ss
  induction ss with
  | nil =>
    intro st st' h
    simp only [runScans] at h
    cases h
    simp [expectedEvents]
  | cons s ss ih =>
    intro st st' h
    simp only [runScans] at h
    cases hps : processScan env st s with
    | error e =>
      rw [hps] at h
      exact absurd h (by simp)
    | ok st₁ =>
      rw [hps] at h
      obtain ⟨he, hz, hl⟩ := ih st₁ st' h
      unfold processScan at hps
      by_cases hempty : ((env.scanData s).paths.isEmpty || (env.scanData s).xys.isEmpty) = true
      · rw [if_pos hempty] at hps
        exact absurd hps (by simp)
      · rw [if_neg hempty] at hps
        have hxys : (env.scanData s).xys ≠ [] := by
          intro hnil
          apply hempty
          simp [hnil]
        obtain ⟨l, hbuild, hlen⟩ := build_tile_specs_length (env.slabScanPath s) s env.slab
          env.mfovs (env.scanData s).paths (env.scanData s).xys st.z env.layout
          env.wafer_id env.tile_width env.tile_height hxys
        have hcount : l.length = tileCount env s := hlen
        by_cases hfirst : (!(env.scanData s).firstExists) = true
        · rw [if_pos hfirst] at hps
          cases hps
          dsimp only at he hz hl
          have hprod : produces env s = false := by
            simp only [Bool.not_eq_true'] at hfirst
            simp [produces, hfirst]
          refine ⟨?_, ?_, ?_⟩
          · rw [he]
            simp [expectedEvents, hfirst, List.append_assoc]
          · rw [hz]
            simp [List.filter_cons, hprod]
          · rw [hl]
            simp [List.filter_cons, hprod]
        · rw [if_neg hfirst] at hps
          have hfirst' : (env.scanData s).firstExists = true := by
            simpa using hfirst
          rw [hbuild] at hps
          have hps' : (if 0 < l.length then
              Except.ok (RunState.mk (st.z + 1) true
                ((st.events ++ if st.loading then [] else [enterLoadingEvent env.stackExists])
                  ++ [Event.saveTiles st.z s l.length]))
            else
              Except.ok (RunState.mk st.z st.loading (st.events ++ [Event.debugEmpty s])))
              = Except.ok st₁ := hps
          clear hps
          by_cases hpos : 0 < l.length
          · rw [if_pos hpos] at hps'
            cases hps'
            dsimp only at he hz hl
            have hprod : produces env s = true := by
              simp only [produces, hfirst', Bool.true_and, bne_iff_ne, ne_eq]
              omega
            refine ⟨?_, ?_, ?_⟩
            · rw [he]
              rw [show expectedEvents env st.z st.loading (s :: ss) =
                  (if st.loading then [] else [enterLoadingEvent env.stackExists])
                    ++ Event.saveTiles st.z s (tileCount env s)
                      :: expectedEvents env (st.z + 1) true ss by
                have hne0 : ¬ tileCount env s = 0 := by omega
                simp only [expectedEvents]
                rw [if_neg (show ¬ (!(env.scanData s).firstExists) = true by simp [hfirst']),
                  if_neg hne0]]
              rw [hcount]
              simp [List.append_assoc, List.cons_append, List.singleton_append]
            · rw [hz]
              simp only [List.filter_cons, hprod, if_true, List.length_cons]
              push_cast
              ring
            · rw [hl]
              simp [List.filter_cons, hprod]
          · rw [if_neg hpos] at hps'
            cases hps'
            dsimp only at he hz hl
            have hprod : produces env s = false := by
              simp only [produces, hfirst', Bool.true_and, bne_eq_false_iff_eq]
              omega
            refine ⟨?_, ?_, ?_⟩
            · rw [he]
              rw [show expectedEvents env st.z st.loading (s :: ss) =
                  Event.debugEmpty s :: expectedEvents env st.z st.loading ss by
                have he0 : tileCount env s = 0 := by omega
                simp only [expectedEvents]
                rw [if_neg (show ¬ (!(env.scanData s).firstExists) = true by simp [hfirst']),
                  if_pos he0]]
              simp [List.append_assoc]
            · rw [hz]
              simp [List.filter_cons, hprod]
            · rw [hl]
              simp [List.filter_cons, hprod]

lemma savesOf_append (a b : List Event) : savesOf (a ++ b) = savesOf a ++ savesOf b :=
  List.filterMap_append a b _

lemma storeOps_append (a b : List Event) : storeOps (a ++ b) = storeOps a ++ storeOps b :=
  List.filter_append a b

lemma savesOf_expectedEvents (env : SlabEnv) :
    ∀ (ss : List Int) (z : Int) (loading : Bool),
    savesOf (expectedEvents env z loading ss) = expectedSaves z (ss.filter (produces env)) := by
  intro ss
  induction ss with
  | nil => intro z loading; rfl
  | cons s ss ih =>
    intro z loading
    by_cases hf : (env.scanData s).firstExists = true
    · by_cases ht : tileCount env s = 0
      · have hprod : produces env s = false := by simp [produces, hf, ht]
        simp only [expectedEvents]
        rw [if_neg (show ¬ (!(env.scanData s).firstExists) = true by simp [hf]), if_pos ht]
        simp only [savesOf, List.filterMap_cons]
        simp only [List.filter_cons, hprod, Bool.false_eq_true, if_false]
        exact ih z loading
      · have hprod : produces env s = true := by simp [produces, hf, ht]
        simp only [expectedEvents]
        rw [if_neg (show ¬ (!(env.scanData s).firstExists) = true by simp [hf]), if_neg ht]
        rw [show (s :: ss).filter (produces env) = s :: ss.filter (produces env) by
          simp [List.filter_cons, hprod]]
        rw [show expectedSaves z (s :: ss.filter (produces env)) =
          (z, s) :: expectedSaves (z + 1) (ss.filter (produces env)) from rfl]
        cases loading with
        | true =>
          simp only [if_true, List.nil_append, savesOf, List.filterMap_cons]
          exact congrArg _ (ih (z + 1) true)
        | false =>
          simp only [Bool.false_eq_true, if_false]
          rw [savesOf_append]
          rw [show savesOf [enterLoadingEvent env.stackExists] = [] by
            cases env.stackExists <;> rfl]
          simp only [List.nil_append, savesOf, List.filterMap_cons]
          exact congrArg _ (ih (z + 1) true)
    · have hf' : (env.scanData s).firstExists = false := by
        simpa using hf
      have hprod : produces env s = false := by simp [produces, hf']
      simp only [expectedEvents]
      rw [if_pos (show (!(env.scanData s).firstExists) = true by simp [hf'])]
      simp only [savesOf, List.filterMap_cons]
      simp only [List.filter_cons, hprod, Bool.false_eq_true, if_false]
      exact ih z loading

lemma storeOps_expectedEvents (env : SlabEnv) :
    ∀ (ss : List Int) (z : Int),
    storeOps (expectedEvents env z true ss) =
      expectedSaveEvents env z (ss.filter (produces env)) ∧
    storeOps (expectedEvents env z false ss) =
      (if (ss.filter (produces env)).isEmpty then []
       else enterLoadingEvent env.stackExists
         :: expectedSaveEvents env z (ss.filter (produces env))) := by
  intro ss
  induction ss with
  | nil => intro z; exact ⟨rfl, rfl⟩
  | cons s ss ih =>
    intro z
    by_cases hf : (env.scanData s).firstExists = true
    · by_cases ht : tileCount env s = 0
      · have hprod : produces env s = false := by simp [produces, hf, ht]
        have hfilter : (s :: ss).filter (produces env) = ss.filter (produces env) := by
          simp [List.filter_cons, hprod]
        rw [hfilter]
        constructor <;>
        · simp only [expectedEvents]
          rw [if_neg (show ¬ (!(env.scanData s).firstExists) = true by simp [hf]), if_pos ht]
          simp only [storeOps, List.filter_cons,
            show isStoreOp (Event.debugEmpty s) = false from rfl,
            Bool.false_eq_true, if_false]
          first
          | exact (ih z).1
          | exact (ih z).2
      · have hprod : produces env s = true := by simp [produces, hf, ht]
        have hfilter : (s :: ss).filter (produces env) = s :: ss.filter (produces env) := by
          simp [List.filter_cons, hprod]
        rw [hfilter]
        have hsave : ∀ L, storeOps (Event.saveTiles z s (tileCount env s) :: L) =
            Event.saveTiles z s (tileCount env s) :: storeOps L := by
          intro L
          simp [storeOps, List.filter_cons, show isStoreOp (Event.saveTiles z s
            (tileCount env s)) = true from rfl]
        constructor
        · simp only [expectedEvents]
          rw [if_neg (show ¬ (!(env.scanData s).firstExists) = true by simp [hf]), if_neg ht]
          simp only [if_true, List.nil_append]
          rw [hsave]
          rw [show expectedSaveEvents env z (s :: ss.filter (produces env)) =
            Event.saveTiles z s (tileCount env s)
              :: expectedSaveEvents env (z + 1) (ss.filter (produces env)) from rfl]
          exact congrArg _ (ih (z + 1)).1
        · simp only [expectedEvents]
          rw [if_neg (show ¬ (!(env.scanData s).firstExists) = true by simp [hf]), if_neg ht]
          simp only [Bool.false_eq_true, if_false]
          rw [storeOps_append]
          rw [show storeOps [enterLoadingEvent env.stackExists] =
              [enterLoadingEvent env.stackExists] by
            cases env.stackExists <;> rfl]
          rw [hsave]
          rw [if_neg (show ¬ (s :: ss.filter (produces env)).isEmpty = true by simp)]
          rw [show expectedSaveEvents env z (s :: ss.filter (produces env)) =
            Event.saveTiles z s (tileCount env s)
              :: expectedSaveEvents env (z + 1) (ss.filter (produces env)) from rfl]
          simp only [List.cons_append, List.nil_append, List.singleton_append]
          exact congrArg _ (congrArg _ (ih (z + 1)).1)
    · have hf' : (env.scanData s).firstExists = false := by
        simpa using hf
      have hprod : produces env s = false := by simp [produces, hf']
      have hfilter : (s :: ss).filter (produces env) = ss.filter (produces env) := by
        simp [List.filter_cons, hprod]
      rw [hfilter]
      constructor <;>
      · simp only [expectedEvents]
        rw [if_pos (show (!(env.scanData s).firstExists) = true by simp [hf'])]
        simp only [storeOps, List.filter_cons,
          show isStoreOp (Event.warnMissing s) = false from rfl,
          Bool.false_eq_true, if_false]
        first
        | exact (ih z).1
        | exact (ih z).2

lemma runSlab_ok_events (env : SlabEnv) (scans : List Int) (evs : List Event)
    (h : runSlab env scans = Except.ok evs) :
    evs = expectedEvents env 1 false scans
      ++ (if !(scans.filter (produces env)).isEmpty then [Event.setComplete] else []) := by
  unfold runSlab at h
  cases hr : runScans env scans initRunState with
  | error e =>
    rw [hr] at h
    exact absurd h (by simp)
  | ok st =>
    rw [hr] at h
    simp only [Except.ok.injEq] at h
    subst h
    obtain ⟨he, hz, hl⟩ := runScans_ok env scans initRunState st hr
    rw [he, hl]
    simp [initRunState]

lemma mem_storeOps_of {e : Event} {L : List Event} (hs : isStoreOp e = true) (h : e ∈ L) :
    e ∈ storeOps L :=
  List.mem_filter.mpr ⟨h, hs⟩

lemma isStoreOp_enter (b : Bool) : isStoreOp (enterLoadingEvent b) = true := by
  cases b <;> rfl

/-- Claim C6: within one slab run, `z` starts at 1 and advances exactly after
each scan that produces a non-empty tile batch, so the save events of a
successful run are exactly the producing scans paired with the consecutive
layer indices 1, 2, 3, ... in scan order — skipped scans leave no gap. -/
theorem z_assignment_dense (env : SlabEnv) (scans : List Int) (evs : List Event)
    (h : runSlab env scans = Except.ok evs) :
    savesOf evs = expectedSaves 1 (scans.filter (produces env)) := by
  rw [runSlab_ok_events env scans evs h, savesOf_append, savesOf_expectedEvents]
  have hsc : savesOf (if !(scans.filter (produces env)).isEmpty
      then [Event.setComplete] else []) = [] := by
    cases (scans.filter (produces env)).isEmpty <;> rfl
  rw [hsc, List.append_nil]

/-- Claim C7: in a successful slab run the remote-store calls are exactly:
nothing at all when no scan produced tiles (no create, no state transition),
and otherwise one loading entry (create when the stack metadata is absent,
force-LOADING when it exists) immediately followed by the save batches and a
final COMPLETE; in particular COMPLETE is issued iff loading was entered in
this run. -/
theorem stack_lifecycle (env : SlabEnv) (scans : List Int) (evs : List Event)
    (h : runSlab env scans = Except.ok evs) :
    storeOps evs = (if (scans.filter (produces env)).isEmpty then []
      else enterLoadingEvent env.stackExists
        :: (expectedSaveEvents env 1 (scans.filter (produces env)) ++ [Event.setComplete])) ∧
    ((Event.setComplete ∈ evs) ↔ enterLoadingEvent env.stackExists ∈ evs) := by
  have hevs := runSlab_ok_events env scans evs h
  subst hevs
  have h2 := (storeOps_expectedEvents env scans 1).2
  by_cases hemp : (scans.filter (produces env)).isEmpty = true
  · simp only [hemp, if_true] at h2
    refine ⟨?_, ?_⟩
    · rw [storeOps_append, h2]
      simp [hemp, storeOps]
    · constructor
      · intro hmem
        exfalso
        have h3 := mem_storeOps_of (show isStoreOp Event.setComplete = true from rfl) hmem
        rw [storeOps_append, h2] at h3
        simp [hemp, storeOps] at h3
      · intro hmem
        exfalso
        have h3 := mem_storeOps_of (isStoreOp_enter env.stackExists) hmem
        rw [storeOps_append, h2] at h3
        simp [hemp, storeOps] at h3
  · have hemp' : (scans.filter (produces env)).isEmpty = false := by
      revert hemp
      cases (scans.filter (produces env)).isEmpty <;> simp
    simp only [hemp', Bool.false_eq_true, if_false] at h2
    refine ⟨?_, ?_⟩
    · rw [storeOps_append, h2]
      simp [hemp', storeOps, List.filter_cons,
        show isStoreOp Event.setComplete = true from rfl]
    · constructor
      · intro hmem
        apply List.mem_append_left
        have h3 : enterLoadingEvent env.stackExists ∈
            storeOps (expectedEvents env 1 false scans) := by
          rw [h2]
          exact List.mem_cons_self _ _
        exact (List.mem_filter.mp h3).1
      · intro hmem
        apply List.mem_append_right
        simp [hemp']

/-! ## Empty-result handling (C8) and concrete run environments -/

/-- Counterexample to claim C8 as stated: for a scan whose collected SFOV
path list is empty the importer does NOT skip with a debug note — the
f-string of the info log at lines 300-302 subscripts
`slab_scan_sfov_path_list[0]` unconditionally, so the run aborts with an
`IndexError` before tile-spec construction is even attempted. -/
theorem empty_path_scan_not_skipped :
    runSlab env8 [1] = Except.error "IndexError: list index out of range" := rfl

/-- Claim C8 as amended: when a selected scan reaches tile-spec construction
(non-empty path and stage-position lists, first image present) and the
construction yields an empty result, the importer records a debug-level note,
leaves `z` and the loading flag unchanged, and continues; but a scan whose
collected SFOV path list is empty never reaches construction — it aborts the
run with an index error raised while logging the first path. -/
theorem empty_tile_specs_skip :
    (∀ (env : SlabEnv) (st : RunState) (s : Int),
      (env.scanData s).paths ≠ [] → (env.scanData s).xys ≠ [] →
      (env.scanData s).firstExists = true → tileCount env s = 0 →
      processScan env st s = Except.ok (RunState.mk st.z st.loading
        (st.events ++ [Event.debugEmpty s]))) ∧
    (∀ (env : SlabEnv) (st : RunState) (s : Int),
      (env.scanData s).paths = [] →
      processScan env st s = Except.error "IndexError: list index out of range") := by
  constructor
  · intro env st s hpaths hxys hfirst hcount
    obtain ⟨l, hbuild, hlen⟩ := build_tile_specs_length (env.slabScanPath s) s env.slab
      env.mfovs (env.scanData s).paths (env.scanData s).xys st.z env.layout
      env.wafer_id env.tile_width env.tile_height hxys
    have hl0 : l.length = 0 := by
      rw [hlen]
      exact hcount
    unfold processScan
    rw [if_neg (show ¬ ((env.scanData s).paths.isEmpty
        || (env.scanData s).xys.isEmpty) = true by simp [hpaths, hxys])]
    rw [if_neg (show ¬ (!(env.scanData s).firstExists) = true by simp [hfirst])]
    simp only [hbuild]
    rw [if_neg (by omega : ¬ 0 < l.length)]
  · intro env st s hpaths
    unfold processScan
    rw [if_pos (show ((env.scanData s).paths.isEmpty
        || (env.scanData s).xys.isEmpty) = true by simp [hpaths])]

/-- Witness for the amended C8 at a concrete environment whose builder zip is
empty (empty MFOV list): the scan is skipped with a debug note and `z` stays
at 1. -/
theorem empty_tile_specs_skip_witness :
    processScan env9 initRunState 5 = Except.ok (RunState.mk 1 false [Event.debugEmpty 5]) := by
  have h := empty_tile_specs_skip.1 env9 initRunState 5 (by decide) (by decide) rfl (by decide)
  exact h

/-- Witness for `z_assignment_dense` at the concrete run of the claim: scans
1, 2, 4 produce tiles, scan 3 is missing its first image, and the saved
batches get z = 1, 2, 3. -/
theorem z_assignment_dense_witness :
    savesOf [Event.createStack, Event.saveTiles 1 1 1, Event.saveTiles 2 2 1,
      Event.warnMissing 3, Event.saveTiles 3 4 1, Event.setComplete] =
      expectedSaves 1 ([1, 2, 3, 4].filter (produces env0)) ∧
    savesOf [Event.createStack, Event.saveTiles 1 1 1, Event.saveTiles 2 2 1,
      Event.warnMissing 3, Event.saveTiles 3 4 1, Event.setComplete] = [(1, 1), (2, 2), (3, 4)] := by
  have h := z_assignment_dense env0 [1, 2, 3, 4]
    [Event.createStack, Event.saveTiles 1 1 1, Event.saveTiles 2 2 1,
      Event.warnMissing 3, Event.saveTiles 3 4 1, Event.setComplete] rfl
  exact ⟨h, by decide⟩

/-- Witness for `stack_lifecycle` at the same concrete run: the store calls
are exactly create, three saves, complete. -/
theorem stack_lifecycle_witness :
    storeOps [Event.createStack, Event.saveTiles 1 1 1, Event.saveTiles 2 2 1,
      Event.warnMissing 3, Event.saveTiles 3 4 1, Event.setComplete] =
      (if ([1, 2, 3, 4].filter (produces env0)).isEmpty then []
       else enterLoadingEvent env0.stackExists
         :: (expectedSaveEvents env0 1 ([1, 2, 3, 4].filter (produces env0))
           ++ [Event.setComplete])) :=
  (stack_lifecycle env0 [1, 2, 3, 4]
    [Event.createStack, Event.saveTiles 1 1 1, Event.saveTiles 2 2 1,
      Event.warnMissing 3, Event.saveTiles 3 4 1, Event.setComplete] rfl).1
